import Mathlib

/-!
Shallow embedding of the `scrape` engine of `hatching-triage.py` (the
HatchingTriage repository) together with the feed-row decoder those parts of
the specification talk about.  Timestamps are modelled as natural numbers via
an order-preserving encoding of the `(year, month, day, hour, minute, second)`
tuples that `datetime.datetime.strptime(_, '%Y-%m-%dT%H:%M:%SZ')` produces;
the remote API is modelled as a pair of oracles (`None` standing for the
`HatchingTriageException` raised on a non-200 response), and the local
filesystem as explicit finite maps inside an explicit scrape state.
-/

namespace HatchingTriage

/-- Model of the `HatchingSampleId` wrapper class from the source: a wrapper class holding the raw id
string.  The class defines neither `__str__` nor `__repr__`, so the string
Python produces for it in an f-string depends on the object's memory address;
`addr` records that address. -/
structure HatchingSampleId where
  value : String
  addr : String
deriving DecidableEq, Repr

/-- The string CPython renders for a `HatchingSampleId` instance inside an
f-string such as `F'{feed_item.id}.json'`: the default `object.__repr__`,
because the class declares no `__str__`/`__repr__`. -/
def pyStrHatchingSampleId (sid : HatchingSampleId) : String :=
  "<__main__.HatchingSampleId object at " ++ sid.addr ++ ">"

/-- Model of `FeedItem` from the source (constructor argument order of line 115),
with the two `strptime` timestamps already decoded to encoded naturals.
`priv` stands for the Python attribute `private` (a Lean keyword). -/
structure FeedItem where
  completed : Option Nat
  filename : Option String
  id : HatchingSampleId
  kind : String
  priv : Bool
  status : String
  submitted : Nat
  tasks : Option (List String)
deriving DecidableEq, Repr

/-- One entry of `report['files']`, restricted to the two keys the scrape
loop reads. -/
structure FileEntry where
  depth : Nat
  sha256 : String
deriving DecidableEq, Repr

/-- The parts of a static-analysis report the scrape loop reads:
`report['analysis']` with its optional `'reported'` timestamp string,
`report['files']`, and `report['sample']['sample']`. -/
structure Report where
  analysisReported : Option String
  files : List FileEntry
  sampleSample : String
deriving DecidableEq, Repr

/-! Timestamps:

`'%Y-%m-%dT%H:%M:%SZ'` parsing and formatting.  A `datetime` value is encoded
as `((((y*13 + mo)*32 + d)*24 + h)*60 + mi)*60 + s`, which is strictly
monotone in the lexicographic component order `datetime` comparison uses, so
`<` on encodings agrees with `<` on datetimes. -/

/-- Order-preserving encoding of a datetime tuple into a natural number. -/
def encodeTimestamp (y mo d h mi s : Nat) : Nat :=
  ((((y * 13 + mo) * 32 + d) * 24 + h) * 60 + mi) * 60 + s

/-- Numeric value of a decimal digit character. -/
def dval (c : Char) : Nat := c.toNat - 48

/-- Two-digit zero-padded decimal rendering (`%m`, `%d`, `%H`, `%M`, `%S`). -/
def twoDigits (n : Nat) : List Char :=
  [Nat.digitChar (n / 10 % 10), Nat.digitChar (n % 10)]

/-- Four-digit zero-padded decimal rendering (`%Y`). -/
def fourDigits (n : Nat) : List Char :=
  [Nat.digitChar (n / 1000 % 10), Nat.digitChar (n / 100 % 10),
   Nat.digitChar (n / 10 % 10), Nat.digitChar (n % 10)]

/-- Rendering of an encoded timestamp by `strftime('%Y-%m-%dT%H:%M:%SZ')`. -/
def formatTimestamp (t : Nat) : String :=
  let s := t % 60
  let mi := t / 60 % 60
  let h := t / 3600 % 24
  let d := t / 86400 % 32
  let mo := t / 2764800 % 13
  let y := t / 35942400
  String.mk (fourDigits y ++ ['-'] ++ twoDigits mo ++ ['-'] ++ twoDigits d ++
    ['T'] ++ twoDigits h ++ [':'] ++ twoDigits mi ++ [':'] ++ twoDigits s ++ ['Z'])

/-- Model of `datetime.datetime.strptime(str, '%Y-%m-%dT%H:%M:%SZ')`: `none` is the
`ValueError` raised on a string that does not match the format. -/
def parseTimestamp (str : String) : Option Nat :=
  match str.data with
  | [y1, y2, y3, y4, c1, m1, m2, c2, d1, d2, c3, h1, h2, c4, mi1, mi2, c5, s1, s2, c6] =>
    if c1 = '-' ∧ c2 = '-' ∧ c3 = 'T' ∧ c4 = ':' ∧ c5 = ':' ∧ c6 = 'Z' ∧
       y1.isDigit ∧ y2.isDigit ∧ y3.isDigit ∧ y4.isDigit ∧
       m1.isDigit ∧ m2.isDigit ∧ d1.isDigit ∧ d2.isDigit ∧
       h1.isDigit ∧ h2.isDigit ∧ mi1.isDigit ∧ mi2.isDigit ∧
       s1.isDigit ∧ s2.isDigit then
      let y := 1000 * dval y1 + 100 * dval y2 + 10 * dval y3 + dval y4
      let mo := 10 * dval m1 + dval m2
      let d := 10 * dval d1 + dval d2
      let h := 10 * dval h1 + dval h2
      let mi := 10 * dval mi1 + dval mi2
      let s := 10 * dval s1 + dval s2
      if 1 ≤ mo ∧ mo ≤ 12 ∧ 1 ≤ d ∧ d ≤ 31 ∧ h ≤ 23 ∧ mi ≤ 59 ∧ s ≤ 59 then
        some (encodeTimestamp y mo d h mi s)
      else none
    else none
  | _ => none

/-- A natural number that is the encoding of an in-range datetime tuple. -/
def ValidTime (t : Nat) : Prop :=
  ∃ y mo d h mi s, y ≤ 9999 ∧ 1 ≤ mo ∧ mo ≤ 12 ∧ 1 ≤ d ∧ d ≤ 31 ∧
    h ≤ 23 ∧ mi ≤ 59 ∧ s ≤ 59 ∧ t = encodeTimestamp y mo d h mi s

theorem digitChar_spec (x : Nat) (hx : x < 10) :
    (Nat.digitChar x).isDigit = true ∧ dval (Nat.digitChar x) = x := by
  interval_cases x <;> exact ⟨rfl, rfl⟩

theorem parseTimestamp_formatTimestamp (t : Nat) (ht : ValidTime t) :
    parseTimestamp (formatTimestamp t) = some t := by
  obtain ⟨y, mo, d, hr, mi, s, hy, hmo1, hmo2, hd1, hd2, hh, hmi, hs, rfl⟩ := ht
  have h60 : encodeTimestamp y mo d hr mi s % 60 = s := by
    unfold encodeTimestamp; omega
  have h60' : encodeTimestamp y mo d hr mi s / 60 % 60 = mi := by
    unfold encodeTimestamp; omega
  have h3600 : encodeTimestamp y mo d hr mi s / 3600 % 24 = hr := by
    unfold encodeTimestamp; omega
  have h86400 : encodeTimestamp y mo d hr mi s / 86400 % 32 = d := by
    unfold encodeTimestamp; omega
  have hmo' : encodeTimestamp y mo d hr mi s / 2764800 % 13 = mo := by
    unfold encodeTimestamp; omega
  have hy' : encodeTimestamp y mo d hr mi s / 35942400 = y := by
    unfold encodeTimestamp; omega
  unfold formatTimestamp
  simp only [h60, h60', h3600, h86400, hmo', hy']
  unfold parseTimestamp fourDigits twoDigits
  simp only [List.cons_append, List.nil_append]
  have hdv : ∀ x : Nat, dval (Nat.digitChar (x % 10)) = x % 10 := fun x =>
    (digitChar_spec _ (Nat.mod_lt _ (by omega))).2
  have hdig : ∀ x : Nat, (Nat.digitChar (x % 10)).isDigit = true := fun x =>
    (digitChar_spec _ (Nat.mod_lt _ (by omega))).1
  simp only [hdv, hdig, eq_self_iff_true, true_and, and_true, if_true, ite_true]
  rw [if_pos]
  · rw [show 1000 * (y / 1000 % 10) + 100 * (y / 100 % 10) + 10 * (y / 10 % 10) + y % 10 = y
          by omega,
        show 10 * (mo / 10 % 10) + mo % 10 = mo by omega,
        show 10 * (d / 10 % 10) + d % 10 = d by omega,
        show 10 * (hr / 10 % 10) + hr % 10 = hr by omega,
        show 10 * (mi / 10 % 10) + mi % 10 = mi by omega,
        show 10 * (s / 10 % 10) + s % 10 = s by omega]
  · omega

/-! Feed-row decoding (`HatchingTriageApi.feed`, lines 175-186).

One row of the feed endpoint's JSON `data` array, restricted to the keys the
decoder reads.  `completed`, `filename` and `tasks` are optional (`'key' in
row.keys()` guards); the remaining keys are accessed unconditionally. -/

structure FeedRow where
  completed : Option String
  filename : Option String
  id : String
  kind : String
  priv : Bool
  status : String
  submitted : String
  tasks : Option (List String)
deriving DecidableEq, Repr

/-- Model of the `FeedItem(...)` construction of lines 176-186.  `addr` is the memory
address at which CPython allocates the `HatchingSampleId` wrapper.  `none`
models the `ValueError` a `strptime` call raises on a malformed timestamp;
`kind`, `private` and `status` are passed through as raw values with no
validation. -/
def feedItemOfRow (addr : String) (row : FeedRow) : Option FeedItem :=
  match (match row.completed with
         | none => some none
         | some c => match parseTimestamp c with
                     | none => none
                     | some tc => some (some tc)),
        parseTimestamp row.submitted with
  | some completedTs, some submittedTs =>
    some { completed := completedTs, filename := row.filename, id := ⟨row.id, addr⟩,
           kind := row.kind, priv := row.priv, status := row.status,
           submitted := submittedTs, tasks := row.tasks }
  | _, _ => none

/-! Scrape engine (`scrape` command, lines 313-389). -/

/-- The abrupt-termination causes of the scrape loop body: the bare
`HatchingTriageException()` of line 367, the `Unknown feed item type` one of
line 381, the one `api.download` raises on a non-200 response (line 202), and
the `ValueError` of the `strptime` call on `report['analysis']['reported']`
(line 356). -/
inductive ScrapeError where
  | wrongRootFileCount : ScrapeError
  | unknownKind : String → ScrapeError
  | downloadFailed : ScrapeError
  | badTimestamp : ScrapeError
deriving DecidableEq, Repr

/-- Scrape-run parameters: the watermark `last_scrape` read from
`state.json` (line 329), `this_scrape` captured before the loop (line 334),
and the two CLI arguments of the `scrape` sub-command. -/
structure ScrapeConfig where
  lastScrape : Nat
  thisScrape : Nat
  ignoreLastScrapeDate : Bool
  maxNewSampleCount : Nat
deriving DecidableEq, Repr

/-- The two remote calls the scrape loop makes, as oracles: `none` models the
`HatchingTriageException` raised on a non-200 response by
`HatchingTriageApi.report` (lines 193-197) and `.download` (lines 199-203).
The argument of `report` is the string interpolated into the request URL. -/
structure HatchingTriageApi where
  report : String → Option Report
  download : String → Option String

/-- The on-disk and in-memory state the scrape loop manipulates: the files
under `<target>/reports/` (keyed by file name, holding the decoded report),
the files under `<target>/samples/` (keyed by file name, i.e. the sha256
hash), the `new_samples` counter, and the content of `<target>/state.json`.
The three lists are ghost observation logs appended by the model and read by
nothing: `downloadCalls` records the sha256 key of each `api.download`
invocation, `writtenHashes` each completed sample-file write, `dispatched`
the `id.value` of each feed item that reached the download-dispatch section
(past the stop-condition check). -/
structure ScrapeState where
  reports : String → Option Report
  samples : String → Bool
  newSamples : Nat
  stateFile : Option String
  downloadCalls : List String
  writtenHashes : List String
  dispatched : List String

/-- Outcome of one iteration of the `for` body: fall through to the next
item (`continue` or normal completion), `break`, or an uncaught exception. -/
inductive StepResult where
  | cont : ScrapeState → StepResult
  | brk : ScrapeState → StepResult
  | err : ScrapeState → ScrapeError → StepResult

/-- Outcome of the whole `for` loop. -/
inductive LoopResult where
  | ok : ScrapeState → LoopResult
  | err : ScrapeState → ScrapeError → LoopResult

/-- The state carried by a step outcome. -/
def StepResult.state : StepResult → ScrapeState
  | .cont s => s
  | .brk s => s
  | .err s _ => s

/-- The state carried by a loop outcome. -/
def LoopResult.state : LoopResult → ScrapeState
  | .ok s => s
  | .err s _ => s

/-- Value of `report_file_name` from line 341: `F'{feed_item.id}.json'` interpolates the
`HatchingSampleId` object itself. -/
def reportFileName (it : FeedItem) : String :=
  pyStrHatchingSampleId it.id ++ ".json"

/-- Value of line 365, `[file for file in report['files'] if file['depth'] == 0]`. -/
def rootFiles (r : Report) : List FileEntry :=
  r.files.filter (fun f => f.depth = 0)

/-- Lines 383-384: `if new_samples >= args.max_new_sample_count: break`,
executed at the end of every non-skipped iteration. -/
def budgetCheck (cfg : ScrapeConfig) (s : ScrapeState) : StepResult :=
  if cfg.maxNewSampleCount ≤ s.newSamples then .brk s else .cont s

/-- Lines 363-384: dispatch on `feed_item.kind` and the trailing budget
check.  For `'file'`: require exactly one depth-0 entry, then download and
write the sample keyed by its sha256 unless that file already exists; for
`'url'`: nothing; otherwise raise. -/
def dispatchPhase (cfg : ScrapeConfig) (api : HatchingTriageApi) (s : ScrapeState)
    (it : FeedItem) (r : Report) : StepResult :=
  let s := { s with dispatched := s.dispatched ++ [it.id.value] }
  if it.kind = "file" then
    match rootFiles r with
    | [file] =>
      if s.samples file.sha256 then budgetCheck cfg s
      else
        let s := { s with downloadCalls := s.downloadCalls ++ [file.sha256] }
        match api.download r.sampleSample with
        | none => .err s .downloadFailed
        | some _content =>
          budgetCheck cfg
            { s with
              samples := fun k => if k = file.sha256 then true else s.samples k,
              writtenHashes := s.writtenHashes ++ [file.sha256],
              newSamples := s.newSamples + 1 }
    | _ => .err s .wrongRootFileCount
  else if it.kind = "url" then budgetCheck cfg s
  else .err s (.unknownKind it.kind)

/-- Lines 354-384: the stop-condition check (`break` when the parsed
`report['analysis']['reported']` is older than the watermark and
`--ignore-last-scrape-date` was not given) followed by the dispatch. -/
def afterReport (cfg : ScrapeConfig) (api : HatchingTriageApi) (s : ScrapeState)
    (it : FeedItem) (r : Report) : StepResult :=
  match r.analysisReported with
  | some str =>
    match parseTimestamp str with
    | none => .err s .badTimestamp
    | some n =>
      if n < cfg.lastScrape ∧ cfg.ignoreLastScrapeDate = false then .brk s
      else dispatchPhase cfg api s it r
  | none => dispatchPhase cfg api s it r

/-- Lines 340-384, one iteration of the `for` body: read the report from the
cache if the file exists, otherwise fetch it (on `HatchingTriageException`:
log, `continue`) and persist it, then run the stop-condition check and the
dispatch. -/
def scrapeStep (cfg : ScrapeConfig) (api : HatchingTriageApi) (s : ScrapeState)
    (it : FeedItem) : StepResult :=
  match s.reports (reportFileName it) with
  | some r => afterReport cfg api s it r
  | none =>
    match api.report (pyStrHatchingSampleId it.id) with
    | none => .cont s
    | some r =>
      afterReport cfg api
        { s with reports := fun k => if k = reportFileName it then some r else s.reports k }
        it r

/-- The `for feed_item in api.feed(...)` loop of line 336 over a given feed
prefix. -/
def scrapeLoop (cfg : ScrapeConfig) (api : HatchingTriageApi) (s : ScrapeState) :
    List FeedItem → LoopResult
  | [] => .ok s
  | it :: rest =>
    match scrapeStep cfg api s it with
    | .cont s' => scrapeLoop cfg api s' rest
    | .brk s' => .ok s'
    | .err s' e => .err s' e

/-- The content `json.dump({'last_scrape': this_scrape.strftime(...)}, fp)`
writes to `state.json` (lines 388-389). -/
def stateJson (t : Nat) : String :=
  "\x7b\"last_scrape\": \"" ++ formatTimestamp t ++ "\"\x7d"

/-- The result of a whole scrape run: its final state and the uncaught
exception, if any. -/
structure RunResult where
  state : ScrapeState
  error : Option ScrapeError

/-- Lines 333-389: run the feed loop and, if no exception escaped it, write
`state.json`; an exception unwinds past the write to the top-level handler
of lines 391-394. -/
def runScrape (cfg : ScrapeConfig) (api : HatchingTriageApi) (s0 : ScrapeState)
    (feed : List FeedItem) : RunResult :=
  match scrapeLoop cfg api s0 feed with
  | .ok s => ⟨{ s with stateFile := some (stateJson cfg.thisScrape) }, none⟩
  | .err s e => ⟨s, some e⟩

/-- The report the loop body obtains for a feed item from state `s`: the
cached file if it exists, otherwise whatever the remote returns. -/
def getReportInState (api : HatchingTriageApi) (s : ScrapeState) (it : FeedItem) :
    Option Report :=
  match s.reports (reportFileName it) with
  | some r => some r
  | none => api.report (pyStrHatchingSampleId it.id)

/-- Outcome of the stop-condition check of lines 354-361 on a report:
`none` when `strptime` would raise, otherwise whether the `break` fires. -/
def stopSignal (cfg : ScrapeConfig) (r : Report) : Option Bool :=
  match r.analysisReported with
  | none => some false
  | some str =>
    match parseTimestamp str with
    | none => none
    | some n => some (decide (n < cfg.lastScrape) && !cfg.ignoreLastScrapeDate)

/-! Model of the report-cache write of lines 351-352,
`with open(report_file_name, 'w') as fp: json.dump(report, fp)`: opening the
final path with mode `'w'` first truncates (or creates) the file, then the
dump fills it.  The two filesystem states below are, in order, what a crash
observer sees after the `open` and after the completed `dump`. -/

/-- Filesystem state right after `open(path, 'w')`: the file exists at the
final path and is empty. -/
def openTruncState (fs : String → Option String) (path : String) :
    String → Option String :=
  fun p => if p = path then some "" else fs p

/-- Filesystem state after `json.dump` has completed. -/
def dumpDoneState (fs : String → Option String) (path content : String) :
    String → Option String :=
  fun p => if p = path then some content else fs p

/-- Filesystem states visible at or after the `open` of the cache write of
lines 351-352, in program order. -/
def cacheWriteVisibleStates (fs : String → Option String) (path content : String) :
    List (String → Option String) :=
  [openTruncState fs path, dumpDoneState fs path content]

/-! Claims C4, C5 and C8. -/

/-- C4 (corrected to a code bug): the spec says the report cache persists the
fetched report at `reports/<sample_id>.json`, named by the sample identifier.
The code builds the name with `F'{feed_item.id}.json'` where `feed_item.id`
is the `HatchingSampleId` wrapper object, so the name is the default object
repr (class plus memory address), not the id value: for a feed item with id
value `220101-aaaa` the cache file name is not `220101-aaaa.json`, and the
name changes when the same id is allocated at a different address. -/
theorem report_cache_misnamed :
    reportFileName
        { completed := none, filename := some "a.bin",
          id := ⟨"220101-aaaa", "0x7f81a2b3c4d0"⟩, kind := "file", priv := false,
          status := "reported", submitted := 0, tasks := none }
      = "<__main__.HatchingSampleId object at 0x7f81a2b3c4d0>.json" ∧
    reportFileName
        { completed := none, filename := some "a.bin",
          id := ⟨"220101-aaaa", "0x7f81a2b3c4d0"⟩, kind := "file", priv := false,
          status := "reported", submitted := 0, tasks := none }
      ≠ "220101-aaaa.json" ∧
    reportFileName
        { completed := none, filename := some "a.bin",
          id := ⟨"220101-aaaa", "0x7f81a2b3c4d0"⟩, kind := "file", priv := false,
          status := "reported", submitted := 0, tasks := none }
      ≠ reportFileName
        { completed := none, filename := some "a.bin",
          id := ⟨"220101-aaaa", "0x7f0000000002"⟩, kind := "file", priv := false,
          status := "reported", submitted := 0, tasks := none } := by
  refine ⟨rfl, ?_, ?_⟩ <;> decide

/-- C5 counterexample: the cache write is not all-or-nothing.  Writing the
report body `"report-body"` to `reports/a.json` on an empty filesystem passes
through a visible state (right after `open(path, 'w')`) in which the cache
entry exists but holds neither nothing nor the full document. -/
theorem cache_write_atomicity_cex :
    ¬ (∀ v ∈ cacheWriteVisibleStates (fun _ => none) "reports/a.json" "report-body",
        v "reports/a.json" = none ∨ v "reports/a.json" = some "report-body") := by
  decide

/-- C5 amended: the report-cache write opens the final path directly with
mode `'w'` (truncating it) and serializes into it in place, so whenever the
serialized document is nonempty there is a visible intermediate state in
which the cache path holds a partial (empty) entry; no write-to-temporary
plus atomic-publish mechanism exists. -/
theorem cache_write_partial_visible (fs : String → Option String)
    (path content : String) (hc : content ≠ "") :
    ∃ v ∈ cacheWriteVisibleStates fs path content,
      v path ≠ none ∧ v path ≠ some content := by
  refine ⟨openTruncState fs path, by simp [cacheWriteVisibleStates], ?_, ?_⟩
  · simp [openTruncState]
  · simp only [openTruncState, if_pos rfl]
    intro h
    exact hc (by injection h with h'; exact h'.symm)

/-- C5 amended, witness: the partial state is visible for the concrete write
of `"report-body"` to `reports/a.json` over an empty filesystem. -/
theorem cache_write_partial_visible_witness :
    ∃ v ∈ cacheWriteVisibleStates (fun _ => none) "reports/a.json" "report-body",
      v "reports/a.json" ≠ none ∧ v "reports/a.json" ≠ some "report-body" :=
  cache_write_partial_visible (fun _ => none) "reports/a.json" "report-body" (by decide)

/-- C8 counterexample: a feed row whose `kind` is the unrecognized string
`"exe"` is decoded successfully — `feed` yields the item with the raw kind
copied through — rather than failing at decode time. -/
theorem feed_kind_decode_cex :
    (feedItemOfRow "0x2"
        { completed := none, filename := some "a.exe", id := "220101-abc",
          kind := "exe", priv := false, status := "reported",
          submitted := "2022-01-01T10:00:00Z", tasks := none }).map
        (fun it => it.kind)
      = some "exe" ∧ ("exe" ≠ "file" ∧ "exe" ≠ "url") := by
  refine ⟨?_, by decide⟩
  decide

/-- C8 amended: the feed-row decoder copies the raw `kind` string into the
`FeedItem` without any validation; unrecognized kinds are yielded as-is (they
are rejected only later, by the scrape dispatch). -/
theorem feed_kind_decode_amended (addr : String) (row : FeedRow) (it : FeedItem)
    (h : feedItemOfRow addr row = some it) : it.kind = row.kind := by
  unfold feedItemOfRow at h
  split at h
  · cases h; rfl
  · exact Option.noConfusion h

/-! Concrete fixtures used by witnesses: a feed of three items (a fresh file,
a fresh url, and a file item whose report predates the watermark), an item of
unknown kind, their reports, an oracle serving them, and an offline oracle. -/

/-- Scrape state of a fresh target directory: no cached reports, no samples,
no `state.json`. -/
def emptyScrapeState : ScrapeState :=
  ⟨fun _ => none, fun _ => false, 0, none, [], [], []⟩

/-- Remote oracle on which every request fails with a non-200 response. -/
def offlineApi : HatchingTriageApi := ⟨fun _ => none, fun _ => none⟩

/-- Watermark 2022-01-01, run start 2022-01-03, stop condition active,
budget 10. -/
def exCfg : ScrapeConfig :=
  ⟨encodeTimestamp 2022 1 1 0 0 0, encodeTimestamp 2022 1 3 0 0 0, false, 10⟩

/-- File-kind feed item reported after the watermark. -/
def exItemFileA : FeedItem :=
  { completed := none, filename := some "a.bin", id := ⟨"220102-aaaa", "0x01"⟩,
    kind := "file", priv := false, status := "reported", submitted := 5, tasks := none }

/-- Url-kind feed item reported after the watermark. -/
def exItemUrlB : FeedItem :=
  { completed := none, filename := none, id := ⟨"220101-bbbb", "0x02"⟩,
    kind := "url", priv := false, status := "reported", submitted := 4, tasks := none }

/-- File-kind feed item reported before the watermark. -/
def exItemFileC : FeedItem :=
  { completed := none, filename := some "c.bin", id := ⟨"211231-cccc", "0x03"⟩,
    kind := "file", priv := false, status := "reported", submitted := 3, tasks := none }

/-- Feed item of the unknown kind `"exe"`. -/
def exItemExe : FeedItem :=
  { completed := none, filename := some "e.exe", id := ⟨"220101-eeee", "0x04"⟩,
    kind := "exe", priv := false, status := "reported", submitted := 2, tasks := none }

/-- Report for `exItemFileA`: one depth-0 file with hash `hA`. -/
def exReportA : Report :=
  { analysisReported := some "2022-01-02T00:00:00Z",
    files := [⟨0, "hA"⟩, ⟨1, "hX"⟩], sampleSample := "220102-aaaa" }

/-- Report for `exItemUrlB`: no files. -/
def exReportB : Report :=
  { analysisReported := some "2022-01-01T12:00:00Z", files := [],
    sampleSample := "220101-bbbb" }

/-- Report for `exItemFileC`: reported before the watermark. -/
def exReportC : Report :=
  { analysisReported := some "2021-12-31T00:00:00Z", files := [⟨0, "hC"⟩],
    sampleSample := "211231-cccc" }

/-- Report for `exItemExe`: no reported timestamp. -/
def exReportExe : Report :=
  { analysisReported := none, files := [⟨0, "hE"⟩], sampleSample := "220101-eeee" }

/-- Second file-kind feed item whose report references the same content hash
`hA` as `exItemFileA` (a resubmission of the same sample). -/
def exItemFileA2 : FeedItem :=
  { completed := none, filename := some "a2.bin", id := ⟨"220102-a2a2", "0x05"⟩,
    kind := "file", priv := false, status := "reported", submitted := 5, tasks := none }

/-- Report for `exItemFileA2`: same depth-0 hash `hA`, different sample id. -/
def exReportA2 : Report :=
  { analysisReported := some "2022-01-02T01:00:00Z",
    files := [⟨0, "hA"⟩], sampleSample := "220102-a2a2" }

/-- Remote oracle serving the fixture reports and all downloads. -/
def exApi : HatchingTriageApi :=
  { report := fun k =>
      if k = pyStrHatchingSampleId exItemFileA.id then some exReportA
      else if k = pyStrHatchingSampleId exItemUrlB.id then some exReportB
      else if k = pyStrHatchingSampleId exItemFileC.id then some exReportC
      else if k = pyStrHatchingSampleId exItemExe.id then some exReportExe
      else if k = pyStrHatchingSampleId exItemFileA2.id then some exReportA2
      else none,
    download := fun _ => some "sample-bytes" }

/-- C8 amended, witness at the `"exe"` row. -/
theorem feed_kind_decode_amended_witness :
    ({ completed := none, filename := some "a.exe", id := ⟨"220101-abc", "0x2"⟩,
       kind := "exe", priv := false, status := "reported",
       submitted := encodeTimestamp 2022 1 1 10 0 0, tasks := none } : FeedItem).kind
      = ({ completed := none, filename := some "a.exe", id := "220101-abc",
           kind := "exe", priv := false, status := "reported",
           submitted := "2022-01-01T10:00:00Z", tasks := none } : FeedRow).kind :=
  feed_kind_decode_amended "0x2" _ _ (by decide)

/-! Claims C6, C10 and C7, settled at the level of one loop iteration. -/

theorem afterReport_of_stopSignal_false (cfg : ScrapeConfig) (api : HatchingTriageApi)
    (s : ScrapeState) (it : FeedItem) (r : Report) (h : stopSignal cfg r = some false) :
    afterReport cfg api s it r = dispatchPhase cfg api s it r := by
  unfold stopSignal at h
  unfold afterReport
  cases hrep : r.analysisReported with
  | none => rfl
  | some str =>
    rw [hrep] at h
    dsimp only at h ⊢
    cases hp : parseTimestamp str with
    | none =>
      rw [hp] at h
      exact Option.noConfusion h
    | some n =>
      rw [hp] at h
      dsimp only at h ⊢
      injection h with h
      rw [if_neg]
      rintro ⟨h1, h2⟩
      rw [h2] at h
      simp [h1] at h

/-- C6: when a feed item's report is not cached and the remote report fetch
fails with a remote error, the loop body catches the exception, leaves the
state unchanged and continues with the next feed item; the failing item never
terminates or aborts the run by itself. -/
theorem report_fetch_failure_skips (cfg : ScrapeConfig) (api : HatchingTriageApi)
    (s : ScrapeState) (it : FeedItem)
    (hc : s.reports (reportFileName it) = none)
    (hf : api.report (pyStrHatchingSampleId it.id) = none) :
    scrapeStep cfg api s it = .cont s ∧
    ∀ rest, scrapeLoop cfg api s (it :: rest) = scrapeLoop cfg api s rest := by
  have hstep : scrapeStep cfg api s it = .cont s := by
    unfold scrapeStep
    rw [hc, hf]
  exact ⟨hstep, fun rest => by simp only [scrapeLoop, hstep]⟩

/-- C6 witness: a fresh state and an offline remote. -/
theorem report_fetch_failure_skips_witness :
    scrapeStep exCfg offlineApi emptyScrapeState exItemFileA = .cont emptyScrapeState ∧
    ∀ rest, scrapeLoop exCfg offlineApi emptyScrapeState (exItemFileA :: rest)
      = scrapeLoop exCfg offlineApi emptyScrapeState rest :=
  report_fetch_failure_skips exCfg offlineApi emptyScrapeState exItemFileA rfl rfl

/-- C10: when a feed item triggers the stop condition (its report resolves,
carries a reported timestamp older than the watermark, and the ignore flag is
off), the loop body breaks at a state whose report cache holds that item's
report on disk: the break never leaves the stopping item's report un-cached. -/
theorem stop_item_report_cached (cfg : ScrapeConfig) (api : HatchingTriageApi)
    (s : ScrapeState) (it : FeedItem) (r : Report) (str : String) (n : Nat)
    (hres : getReportInState api s it = some r)
    (hrep : r.analysisReported = some str)
    (hn : parseTimestamp str = some n)
    (hlt : n < cfg.lastScrape)
    (hig : cfg.ignoreLastScrapeDate = false) :
    ∃ s', scrapeStep cfg api s it = .brk s' ∧
      s'.reports (reportFileName it) = some r := by
  have hbrk : ∀ s₁ : ScrapeState, afterReport cfg api s₁ it r = .brk s₁ := by
    intro s₁
    unfold afterReport
    rw [hrep]
    dsimp only
    rw [hn]
    dsimp only
    rw [if_pos ⟨hlt, hig⟩]
  unfold getReportInState at hres
  unfold scrapeStep
  cases hcache : s.reports (reportFileName it) with
  | some r0 =>
    rw [hcache] at hres
    dsimp only at hres
    injection hres with hres
    subst hres
    exact ⟨s, hbrk s, hcache⟩
  | none =>
    rw [hcache] at hres
    dsimp only at hres
    rw [hres]
    refine ⟨_, hbrk _, ?_⟩
    simp

/-- C10 witness: the fixture item whose report predates the watermark. -/
theorem stop_item_report_cached_witness :
    ∃ s', scrapeStep exCfg exApi emptyScrapeState exItemFileC = .brk s' ∧
      s'.reports (reportFileName exItemFileC) = some exReportC :=
  stop_item_report_cached exCfg exApi emptyScrapeState exItemFileC exReportC
    "2021-12-31T00:00:00Z" (encodeTimestamp 2021 12 31 0 0 0)
    (by decide) (by decide) (by decide) (by decide) (by decide)

/-- C7: when the loop body dispatches a feed item (its report resolves and
the stop condition does not fire) whose kind is `file` with a number of
depth-0 file entries different from one, or whose kind is neither `file` nor
`url`, the body raises an uncaught exception, the run aborts with that error,
and `state.json` — the watermark — is left exactly as it was. -/
theorem consistency_error_aborts (cfg : ScrapeConfig) (api : HatchingTriageApi)
    (s : ScrapeState) (it : FeedItem) (r : Report) (rest : List FeedItem)
    (hres : getReportInState api s it = some r)
    (hns : stopSignal cfg r = some false)
    (hbad : (it.kind = "file" ∧ (rootFiles r).length ≠ 1) ∨
            (it.kind ≠ "file" ∧ it.kind ≠ "url")) :
    ∃ s' e, scrapeStep cfg api s it = .err s' e ∧ s'.stateFile = s.stateFile ∧
      (runScrape cfg api s (it :: rest)).error = some e ∧
      (runScrape cfg api s (it :: rest)).state.stateFile = s.stateFile := by
  have hdisp : ∀ s₁ : ScrapeState, ∃ e, dispatchPhase cfg api s₁ it r =
      .err { s₁ with dispatched := s₁.dispatched ++ [it.id.value] } e := by
    intro s₁
    unfold dispatchPhase
    rcases hbad with ⟨hk, hlen⟩ | ⟨hk1, hk2⟩
    · rw [if_pos hk]
      cases hroot : rootFiles r with
      | nil => exact ⟨.wrongRootFileCount, rfl⟩
      | cons f t =>
        cases t with
        | nil => rw [hroot] at hlen; simp at hlen
        | cons f2 t2 => exact ⟨.wrongRootFileCount, rfl⟩
    · rw [if_neg hk1, if_neg hk2]
      exact ⟨.unknownKind it.kind, rfl⟩
  have key : ∃ s' e, scrapeStep cfg api s it = .err s' e ∧
      s'.stateFile = s.stateFile := by
    unfold scrapeStep
    cases hcache : s.reports (reportFileName it) with
    | some r0 =>
      dsimp only
      unfold getReportInState at hres
      rw [hcache] at hres
      dsimp only at hres
      injection hres with hres
      subst hres
      rw [afterReport_of_stopSignal_false cfg api s it r0 hns]
      obtain ⟨e, he⟩ := hdisp s
      exact ⟨_, e, he, rfl⟩
    | none =>
      dsimp only
      unfold getReportInState at hres
      rw [hcache] at hres
      dsimp only at hres
      rw [hres]
      dsimp only
      rw [afterReport_of_stopSignal_false cfg api _ it r hns]
      obtain ⟨e, he⟩ := hdisp _
      exact ⟨_, e, he, rfl⟩
  obtain ⟨s', e, hstep, hsf⟩ := key
  refine ⟨s', e, hstep, hsf, ?_, ?_⟩
  · unfold runScrape
    simp only [scrapeLoop, hstep]
  · unfold runScrape
    simp only [scrapeLoop, hstep]
    exact hsf

/-- C7 witness: the spec's own scenario, a feed item of unknown kind
`"exe"`. -/
theorem consistency_error_aborts_witness :
    ∃ s' e, scrapeStep exCfg exApi emptyScrapeState exItemExe = .err s' e ∧
      s'.stateFile = emptyScrapeState.stateFile ∧
      (runScrape exCfg exApi emptyScrapeState [exItemExe]).error = some e ∧
      (runScrape exCfg exApi emptyScrapeState [exItemExe]).state.stateFile
        = emptyScrapeState.stateFile :=
  consistency_error_aborts exCfg exApi emptyScrapeState exItemExe exReportExe []
    (by decide) (by decide) (Or.inr (by decide))

/-! Claim C3: the loop body never touches `state.json`; only the finalize
step of lines 388-389 writes it, and only on non-error termination. -/

theorem budgetCheck_state (cfg : ScrapeConfig) (s : ScrapeState) :
    (budgetCheck cfg s).state = s := by
  unfold budgetCheck
  split <;> rfl

theorem dispatchPhase_stateFile (cfg : ScrapeConfig) (api : HatchingTriageApi)
    (s : ScrapeState) (it : FeedItem) (r : Report) :
    ((dispatchPhase cfg api s it r).state).stateFile = s.stateFile := by
  unfold dispatchPhase
  by_cases hk : it.kind = "file"
  · rw [if_pos hk]
    cases hroot : rootFiles r with
    | nil => rfl
    | cons f t =>
      cases t with
      | nil =>
        dsimp only
        by_cases hs : s.samples f.sha256 = true
        · rw [if_pos hs, budgetCheck_state]
        · rw [if_neg hs]
          cases hdl : api.download r.sampleSample with
          | none => rfl
          | some c => rw [budgetCheck_state]
      | cons f2 t2 => rfl
  · rw [if_neg hk]
    by_cases hu : it.kind = "url"
    · rw [if_pos hu, budgetCheck_state]
    · rw [if_neg hu]
      rfl

theorem afterReport_stateFile (cfg : ScrapeConfig) (api : HatchingTriageApi)
    (s : ScrapeState) (it : FeedItem) (r : Report) :
    ((afterReport cfg api s it r).state).stateFile = s.stateFile := by
  unfold afterReport
  cases hrep : r.analysisReported with
  | none => exact dispatchPhase_stateFile _ _ _ _ _
  | some str =>
    dsimp only
    cases hp : parseTimestamp str with
    | none => rfl
    | some n =>
      dsimp only
      split
      · rfl
      · exact dispatchPhase_stateFile _ _ _ _ _

theorem scrapeStep_stateFile (cfg : ScrapeConfig) (api : HatchingTriageApi)
    (s : ScrapeState) (it : FeedItem) :
    ((scrapeStep cfg api s it).state).stateFile = s.stateFile := by
  unfold scrapeStep
  cases hc : s.reports (reportFileName it) with
  | some r => exact afterReport_stateFile _ _ _ _ _
  | none =>
    dsimp only
    cases hf : api.report (pyStrHatchingSampleId it.id) with
    | none => rfl
    | some r => exact afterReport_stateFile _ _ _ _ _

theorem scrapeLoop_stateFile (cfg : ScrapeConfig) (api : HatchingTriageApi) :
    ∀ (l : List FeedItem) (s : ScrapeState),
      ((scrapeLoop cfg api s l).state).stateFile = s.stateFile := by
  intro l
  induction l with
  | nil => intro s; rfl
  | cons it rest ih =>
    intro s
    have hstep := scrapeStep_stateFile cfg api s it
    cases hsr : scrapeStep cfg api s it with
    | cont s' =>
      rw [hsr] at hstep
      simp only [scrapeLoop, hsr]
      rw [ih s']
      exact hstep
    | brk s' =>
      rw [hsr] at hstep
      simp only [scrapeLoop, hsr]
      exact hstep
    | err s' e =>
      rw [hsr] at hstep
      simp only [scrapeLoop, hsr]
      exact hstep

/-- C3: on every non-error termination of the scrape loop the engine writes
`state.json` holding exactly the `this_scrape` timestamp captured at run
start, formatted with `'%Y-%m-%dT%H:%M:%SZ'` (ISO-8601, second precision,
`'Z'` suffix; the parser of the same format recovers the value exactly),
while an uncaught error aborts before the write and leaves `state.json`
exactly as it was at run start. -/
theorem watermark_finalization (cfg : ScrapeConfig) (api : HatchingTriageApi)
    (s0 : ScrapeState) (feed : List FeedItem) (hv : ValidTime cfg.thisScrape) :
    ((runScrape cfg api s0 feed).error = none →
      (runScrape cfg api s0 feed).state.stateFile = some (stateJson cfg.thisScrape) ∧
      parseTimestamp (formatTimestamp cfg.thisScrape) = some cfg.thisScrape) ∧
    (∀ e, (runScrape cfg api s0 feed).error = some e →
      (runScrape cfg api s0 feed).state.stateFile = s0.stateFile) := by
  have hloop := scrapeLoop_stateFile cfg api feed s0
  unfold runScrape
  cases hres : scrapeLoop cfg api s0 feed with
  | ok s =>
    exact ⟨fun _ => ⟨rfl, parseTimestamp_formatTimestamp _ hv⟩,
      fun e he => Option.noConfusion he⟩
  | err s e0 =>
    rw [hres] at hloop
    exact ⟨fun hnone => Option.noConfusion hnone, fun e he => hloop⟩

/-- C3 witness at the fixture run (watermark 2022-01-01, start 2022-01-03). -/
theorem watermark_finalization_witness :
    ((runScrape exCfg exApi emptyScrapeState [exItemFileA, exItemUrlB, exItemFileC]).error
        = none →
      (runScrape exCfg exApi emptyScrapeState
          [exItemFileA, exItemUrlB, exItemFileC]).state.stateFile
        = some (stateJson exCfg.thisScrape) ∧
      parseTimestamp (formatTimestamp exCfg.thisScrape) = some exCfg.thisScrape) ∧
    (∀ e, (runScrape exCfg exApi emptyScrapeState
          [exItemFileA, exItemUrlB, exItemFileC]).error = some e →
      (runScrape exCfg exApi emptyScrapeState
          [exItemFileA, exItemUrlB, exItemFileC]).state.stateFile
        = emptyScrapeState.stateFile) :=
  watermark_finalization exCfg exApi emptyScrapeState [exItemFileA, exItemUrlB, exItemFileC]
    ⟨2022, 1, 3, 0, 0, 0, by decide, by decide, by decide, by decide, by decide,
      by decide, by decide, by decide, rfl⟩

/-! Claims C2 and C9: per-step change discipline of the sample store, the
download log, the written log and the `new_samples` counter. -/

/-- Change a loop-body outcome can make to the sample store, the download
log, the written log and the counter: either no download activity at all, or
a failed download (log appended, nothing written), or one completed download
of a hash that was absent from the store. -/
def StepDelta (s : ScrapeState) (res : StepResult) : Prop :=
  (res.state.samples = s.samples ∧ res.state.newSamples = s.newSamples ∧
   res.state.downloadCalls = s.downloadCalls ∧
   res.state.writtenHashes = s.writtenHashes) ∨
  (∃ h e s₁, res = .err s₁ e ∧ s.samples h = false ∧ s₁.samples = s.samples ∧
     s₁.newSamples = s.newSamples ∧ s₁.downloadCalls = s.downloadCalls ++ [h] ∧
     s₁.writtenHashes = s.writtenHashes) ∨
  (∃ h, s.samples h = false ∧
     res.state.samples = (fun k => if k = h then true else s.samples k) ∧
     res.state.newSamples = s.newSamples + 1 ∧
     res.state.downloadCalls = s.downloadCalls ++ [h] ∧
     res.state.writtenHashes = s.writtenHashes ++ [h])

theorem dispatchPhase_delta (cfg : ScrapeConfig) (api : HatchingTriageApi)
    (s : ScrapeState) (it : FeedItem) (r : Report) :
    StepDelta s (dispatchPhase cfg api s it r) := by
  unfold dispatchPhase
  by_cases hk : it.kind = "file"
  · rw [if_pos hk]
    cases hroot : rootFiles r with
    | nil => exact Or.inl ⟨rfl, rfl, rfl, rfl⟩
    | cons f t =>
      cases t with
      | nil =>
        dsimp only
        by_cases hs : s.samples f.sha256 = true
        · rw [if_pos hs]
          exact Or.inl (by rw [budgetCheck_state]; exact ⟨rfl, rfl, rfl, rfl⟩)
        · rw [if_neg hs]
          have hs' : s.samples f.sha256 = false := by
            cases hval : s.samples f.sha256
            · rfl
            · exact absurd hval hs
          cases hdl : api.download r.sampleSample with
          | none =>
            exact Or.inr (Or.inl
              ⟨f.sha256, .downloadFailed, _, rfl, hs', rfl, rfl, rfl, rfl⟩)
          | some c =>
            refine Or.inr (Or.inr ⟨f.sha256, hs', ?_, ?_, ?_, ?_⟩) <;>
              rw [budgetCheck_state]
      | cons f2 t2 => exact Or.inl ⟨rfl, rfl, rfl, rfl⟩
  · rw [if_neg hk]
    by_cases hu : it.kind = "url"
    · rw [if_pos hu]
      exact Or.inl (by rw [budgetCheck_state]; exact ⟨rfl, rfl, rfl, rfl⟩)
    · rw [if_neg hu]
      exact Or.inl ⟨rfl, rfl, rfl, rfl⟩

theorem afterReport_delta (cfg : ScrapeConfig) (api : HatchingTriageApi)
    (s : ScrapeState) (it : FeedItem) (r : Report) :
    StepDelta s (afterReport cfg api s it r) := by
  unfold afterReport
  cases hrep : r.analysisReported with
  | none => exact dispatchPhase_delta cfg api s it r
  | some str =>
    dsimp only
    cases hp : parseTimestamp str with
    | none => exact Or.inl ⟨rfl, rfl, rfl, rfl⟩
    | some n =>
      dsimp only
      split
      · exact Or.inl ⟨rfl, rfl, rfl, rfl⟩
      · exact dispatchPhase_delta cfg api s it r

theorem scrapeStep_delta (cfg : ScrapeConfig) (api : HatchingTriageApi)
    (s : ScrapeState) (it : FeedItem) :
    StepDelta s (scrapeStep cfg api s it) := by
  unfold scrapeStep
  cases hc : s.reports (reportFileName it) with
  | some r => exact afterReport_delta cfg api s it r
  | none =>
    dsimp only
    cases hf : api.report (pyStrHatchingSampleId it.id) with
    | none => exact Or.inl ⟨rfl, rfl, rfl, rfl⟩
    | some r => exact afterReport_delta cfg api _ it r

theorem budgetCheck_eq_cont (cfg : ScrapeConfig) (x s' : ScrapeState)
    (h : budgetCheck cfg x = .cont s') :
    s' = x ∧ x.newSamples < cfg.maxNewSampleCount := by
  unfold budgetCheck at h
  split at h
  · exact StepResult.noConfusion h
  · injection h with h
    exact ⟨h.symm, by omega⟩

theorem dispatchPhase_cont (cfg : ScrapeConfig) (api : HatchingTriageApi)
    (s : ScrapeState) (it : FeedItem) (r : Report) (s' : ScrapeState)
    (h : dispatchPhase cfg api s it r = .cont s') :
    s'.newSamples < cfg.maxNewSampleCount := by
  unfold dispatchPhase at h
  by_cases hk : it.kind = "file"
  · rw [if_pos hk] at h
    cases hroot : rootFiles r with
    | nil =>
      rw [hroot] at h
      dsimp only at h
      exact StepResult.noConfusion h
    | cons f t =>
      cases t with
      | nil =>
        rw [hroot] at h
        dsimp only at h
        by_cases hs : s.samples f.sha256 = true
        · rw [if_pos hs] at h
          rcases budgetCheck_eq_cont _ _ _ h with ⟨rfl, hlt⟩
          exact hlt
        · rw [if_neg hs] at h
          cases hdl : api.download r.sampleSample with
          | none =>
            rw [hdl] at h
            dsimp only at h
            exact StepResult.noConfusion h
          | some c =>
            rw [hdl] at h
            dsimp only at h
            rcases budgetCheck_eq_cont _ _ _ h with ⟨rfl, hlt⟩
            exact hlt
      | cons f2 t2 =>
        rw [hroot] at h
        dsimp only at h
        exact StepResult.noConfusion h
  · rw [if_neg hk] at h
    by_cases hu : it.kind = "url"
    · rw [if_pos hu] at h
      rcases budgetCheck_eq_cont _ _ _ h with ⟨rfl, hlt⟩
      exact hlt
    · rw [if_neg hu] at h
      exact StepResult.noConfusion h

theorem afterReport_cont (cfg : ScrapeConfig) (api : HatchingTriageApi)
    (s : ScrapeState) (it : FeedItem) (r : Report) (s' : ScrapeState)
    (h : afterReport cfg api s it r = .cont s') :
    s'.newSamples < cfg.maxNewSampleCount := by
  unfold afterReport at h
  cases hrep : r.analysisReported with
  | none =>
    rw [hrep] at h
    dsimp only at h
    exact dispatchPhase_cont _ _ _ _ _ _ h
  | some str =>
    rw [hrep] at h
    dsimp only at h
    cases hp : parseTimestamp str with
    | none =>
      rw [hp] at h
      exact StepResult.noConfusion h
    | some n =>
      rw [hp] at h
      dsimp only at h
      split at h
      · exact StepResult.noConfusion h
      · exact dispatchPhase_cont _ _ _ _ _ _ h

theorem scrapeStep_cont_news (cfg : ScrapeConfig) (api : HatchingTriageApi)
    (s : ScrapeState) (it : FeedItem) (s' : ScrapeState)
    (h : scrapeStep cfg api s it = .cont s') :
    s'.newSamples < cfg.maxNewSampleCount ∨ s'.newSamples = s.newSamples := by
  unfold scrapeStep at h
  cases hc : s.reports (reportFileName it) with
  | some r =>
    rw [hc] at h
    dsimp only at h
    exact Or.inl (afterReport_cont _ _ _ _ _ _ h)
  | none =>
    rw [hc] at h
    dsimp only at h
    cases hf : api.report (pyStrHatchingSampleId it.id) with
    | none =>
      rw [hf] at h
      dsimp only at h
      injection h with h
      exact Or.inr (by rw [← h])
    | some r =>
      rw [hf] at h
      dsimp only at h
      exact Or.inl (afterReport_cont _ _ _ _ _ _ h)

theorem scrapeLoop_budget (cfg : ScrapeConfig) (api : HatchingTriageApi) :
    ∀ (l : List FeedItem) (s : ScrapeState),
      s.newSamples < cfg.maxNewSampleCount →
      s.writtenHashes.length = s.newSamples →
      ((scrapeLoop cfg api s l).state).newSamples ≤ cfg.maxNewSampleCount ∧
      ((scrapeLoop cfg api s l).state).writtenHashes.length
        = ((scrapeLoop cfg api s l).state).newSamples := by
  intro l
  induction l with
  | nil => intro s h1 h2; exact ⟨Nat.le_of_lt h1, h2⟩
  | cons it rest ih =>
    intro s h1 h2
    have hdelta := scrapeStep_delta cfg api s it
    cases hsr : scrapeStep cfg api s it with
    | cont s' =>
      rw [hsr] at hdelta
      simp only [scrapeLoop, hsr]
      simp only [StepDelta, StepResult.state] at hdelta
      have hnews : s'.newSamples < cfg.maxNewSampleCount := by
        rcases scrapeStep_cont_news cfg api s it s' hsr with h | h
        · exact h
        · omega
      have hwl : s'.writtenHashes.length = s'.newSamples := by
        rcases hdelta with ⟨hsamp, hn, hdl, hw⟩ | ⟨h, e, s₁, heq, _, _, _, _, _⟩ |
          ⟨h, hsf, hsamp, hn, hdl, hw⟩
        · rw [hw, hn, h2]
        · exact StepResult.noConfusion heq
        · rw [hw, hn]
          simp [h2]
      exact ih s' hnews hwl
    | brk s' =>
      rw [hsr] at hdelta
      simp only [scrapeLoop, hsr]
      simp only [LoopResult.state]
      simp only [StepDelta, StepResult.state] at hdelta
      rcases hdelta with ⟨hsamp, hn, hdl, hw⟩ | ⟨h, e, s₁, heq, _, _, _, _, _⟩ |
        ⟨h, hsf, hsamp, hn, hdl, hw⟩
      · exact ⟨by omega, by rw [hw, hn, h2]⟩
      · exact StepResult.noConfusion heq
      · refine ⟨by omega, ?_⟩
        rw [hw, hn]
        simp [h2]
    | err s' e =>
      rw [hsr] at hdelta
      simp only [scrapeLoop, hsr]
      simp only [LoopResult.state]
      simp only [StepDelta, StepResult.state] at hdelta
      rcases hdelta with ⟨hsamp, hn, hdl, hw⟩ | ⟨h, e2, s₁, heq, hsf, hsamp, hn, hdl, hw⟩ |
        ⟨h, hsf, hsamp, hn, hdl, hw⟩
      · exact ⟨by omega, by rw [hw, hn, h2]⟩
      · injection heq with heq1 heq2
        subst heq1
        exact ⟨by omega, by rw [hw, hn, h2]⟩
      · refine ⟨by omega, ?_⟩
        rw [hw, hn]
        simp [h2]

/-- C2 (amended to require a budget of at least one): for every run invoked
with `max_new_sample_count = K ≥ 1` on a state with a fresh counter, the
scrape engine performs at most `K` completed artifact writes (equivalently,
`new_samples` never exceeds `K`), terminating the loop at the end of the
iteration in which the `K`-th download completes. -/
theorem budget_enforced (cfg : ScrapeConfig) (api : HatchingTriageApi)
    (s0 : ScrapeState) (feed : List FeedItem)
    (hK : 1 ≤ cfg.maxNewSampleCount) (h0 : s0.newSamples = 0)
    (hw : s0.writtenHashes = []) :
    (runScrape cfg api s0 feed).state.newSamples ≤ cfg.maxNewSampleCount ∧
    (runScrape cfg api s0 feed).state.writtenHashes.length
      ≤ cfg.maxNewSampleCount := by
  have h := scrapeLoop_budget cfg api feed s0 (by omega) (by rw [hw, h0]; rfl)
  unfold runScrape
  cases hres : scrapeLoop cfg api s0 feed with
  | ok s =>
    rw [hres] at h
    simp only [LoopResult.state] at h
    dsimp only
    exact ⟨h.1, by rw [h.2]; exact h.1⟩
  | err s e =>
    rw [hres] at h
    simp only [LoopResult.state] at h
    dsimp only
    exact ⟨h.1, by rw [h.2]; exact h.1⟩

/-- Scrape configuration whose `--max-new-sample-count` is zero. -/
def exCfgZero : ScrapeConfig :=
  ⟨encodeTimestamp 2022 1 1 0 0 0, encodeTimestamp 2022 1 3 0 0 0, false, 0⟩

/-- C2 counterexample: with `max_new_sample_count = 0` and one fresh file
item in the feed, the run still downloads and writes one artifact — more
than `K = 0` — because the budget check of lines 383-384 only runs at the
end of an iteration, after the download of that iteration has happened. -/
theorem budget_zero_cex :
    ¬ ((runScrape exCfgZero exApi emptyScrapeState [exItemFileA]).state.writtenHashes.length
        ≤ exCfgZero.maxNewSampleCount) := by
  decide

/-- Invariant of C9 between loop iterations: the download log has no
duplicates and coincides with the written log, every logged hash is in the
sample store now, the store only grows relative to the run's initial state
`s0`, and every logged hash was absent from `s0`. -/
def DownloadInv (s0 s : ScrapeState) : Prop :=
  s.downloadCalls.Nodup ∧ s.writtenHashes = s.downloadCalls ∧
  (∀ h ∈ s.downloadCalls, s.samples h = true) ∧
  (∀ h, s0.samples h = true → s.samples h = true) ∧
  (∀ h ∈ s.downloadCalls, s0.samples h = false)

/-- Conclusions of C9 at a terminal state: at most one download call and at
most one completed write per hash, and only for hashes initially absent. -/
def DownloadPack (s0 s : ScrapeState) : Prop :=
  s.downloadCalls.Nodup ∧ s.writtenHashes.Nodup ∧
  s.writtenHashes.length ≤ s.downloadCalls.length ∧
  (∀ h ∈ s.downloadCalls, s0.samples h = false) ∧
  (∀ h ∈ s.writtenHashes, s0.samples h = false)

theorem downloadInv_pack (s0 s : ScrapeState) (h : DownloadInv s0 s) :
    DownloadPack s0 s := by
  obtain ⟨h1, h2, h3, h4, h5⟩ := h
  exact ⟨h1, h2 ▸ h1, le_of_eq (by rw [h2]), h5, fun x hm => h5 x (h2 ▸ hm)⟩

theorem stepDelta_download (s0 s : ScrapeState) (res : StepResult)
    (hd : StepDelta s res) (hinv : DownloadInv s0 s) :
    DownloadPack s0 res.state ∧
    (∀ s', res = .cont s' → DownloadInv s0 s') ∧
    (∀ s', res = .brk s' → DownloadInv s0 s') := by
  have hnotin : ∀ h, s.samples h = false → h ∉ s.downloadCalls := by
    intro h hf hmem
    rw [hinv.2.2.1 h hmem] at hf
    exact Bool.noConfusion hf
  have hs0 : ∀ h, s.samples h = false → s0.samples h = false := by
    intro h hf
    cases hh : s0.samples h
    · rfl
    · rw [hinv.2.2.2.1 h hh] at hf
      exact Bool.noConfusion hf
  rcases hd with ⟨hsamp, hn, hdl, hw⟩ | ⟨h, e, s₁, heq, hsf, hsamp, hn, hdl, hw⟩ |
    ⟨h, hsf, hsamp, hn, hdl, hw⟩
  · have hinv' : DownloadInv s0 res.state := by
      obtain ⟨i1, i2, i3, i4, i5⟩ := hinv
      refine ⟨hdl ▸ i1, by rw [hw, hdl]; exact i2, ?_, ?_, ?_⟩
      · intro x hm
        rw [hsamp]
        exact i3 x (hdl ▸ hm)
      · intro x hx
        rw [hsamp]
        exact i4 x hx
      · intro x hm
        exact i5 x (hdl ▸ hm)
    refine ⟨downloadInv_pack _ _ hinv', ?_, ?_⟩ <;>
      exact fun s' hc => (by rw [hc]; rfl : res.state = s') ▸ hinv'
  · subst heq
    simp only [StepResult.state]
    obtain ⟨i1, i2, i3, i4, i5⟩ := hinv
    refine ⟨⟨?_, ?_, ?_, ?_, ?_⟩,
      fun s' hc => StepResult.noConfusion hc,
      fun s' hc => StepResult.noConfusion hc⟩
    · show s₁.downloadCalls.Nodup
      rw [hdl]
      simp [List.nodup_append, i1, hnotin h hsf]
    · show s₁.writtenHashes.Nodup
      rw [hw, i2]
      exact i1
    · show s₁.writtenHashes.length ≤ s₁.downloadCalls.length
      rw [hw, hdl, i2]
      simp
    · intro x hm
      rw [hdl] at hm
      rcases List.mem_append.mp hm with hx | hx
      · exact i5 x hx
      · rw [List.mem_singleton.mp hx]
        exact hs0 h hsf
    · intro x hm
      rw [hw, i2] at hm
      exact i5 x hm
  · have hinv' : DownloadInv s0 res.state := by
      obtain ⟨i1, i2, i3, i4, i5⟩ := hinv
      refine ⟨?_, ?_, ?_, ?_, ?_⟩
      · rw [hdl]
        simp [List.nodup_append, i1, hnotin h hsf]
      · rw [hw, hdl, i2]
      · intro x hm
        rw [hsamp]
        by_cases hxh : x = h
        · simp [hxh]
        · simp only [if_neg hxh]
          rw [hdl] at hm
          rcases List.mem_append.mp hm with hx | hx
          · exact i3 x hx
          · exact absurd (List.mem_singleton.mp hx) hxh
      · intro x hx
        rw [hsamp]
        by_cases hxh : x = h
        · simp [hxh]
        · simp only [if_neg hxh]
          exact i4 x hx
      · intro x hm
        rw [hdl] at hm
        rcases List.mem_append.mp hm with hx | hx
        · exact i5 x hx
        · rw [List.mem_singleton.mp hx]
          exact hs0 h hsf
    refine ⟨downloadInv_pack _ _ hinv', ?_, ?_⟩ <;>
      exact fun s' hc => (by rw [hc]; rfl : res.state = s') ▸ hinv'

theorem scrapeLoop_download (cfg : ScrapeConfig) (api : HatchingTriageApi)
    (s0 : ScrapeState) :
    ∀ (l : List FeedItem) (s : ScrapeState), DownloadInv s0 s →
      DownloadPack s0 ((scrapeLoop cfg api s l).state) := by
  intro l
  induction l with
  | nil => intro s hinv; exact downloadInv_pack _ _ hinv
  | cons it rest ih =>
    intro s hinv
    have hd := stepDelta_download s0 s (scrapeStep cfg api s it)
      (scrapeStep_delta cfg api s it) hinv
    cases hsr : scrapeStep cfg api s it with
    | cont s' =>
      simp only [scrapeLoop, hsr]
      exact ih s' (hd.2.1 s' hsr)
    | brk s' =>
      simp only [scrapeLoop, hsr]
      simp only [LoopResult.state]
      exact downloadInv_pack _ _ (hd.2.2 s' hsr)
    | err s' e =>
      simp only [scrapeLoop, hsr]
      simp only [LoopResult.state]
      have := hd.1
      rw [hsr] at this
      exact this

/-- C9: across a whole run from a state with empty logs, the artifact store
performs at most one network fetch and at most one completed file write per
content hash (the logs are duplicate-free and writes never outnumber
fetches), and it only ever fetches or writes hashes whose sample file did
not exist at run start — a hash whose file already exists is never fetched
or written again. -/
theorem artifact_at_most_once (cfg : ScrapeConfig) (api : HatchingTriageApi)
    (s0 : ScrapeState) (feed : List FeedItem)
    (hdl : s0.downloadCalls = []) (hw : s0.writtenHashes = []) :
    (runScrape cfg api s0 feed).state.downloadCalls.Nodup ∧
    (runScrape cfg api s0 feed).state.writtenHashes.Nodup ∧
    (runScrape cfg api s0 feed).state.writtenHashes.length
      ≤ (runScrape cfg api s0 feed).state.downloadCalls.length ∧
    (∀ h ∈ (runScrape cfg api s0 feed).state.downloadCalls, s0.samples h = false) ∧
    (∀ h ∈ (runScrape cfg api s0 feed).state.writtenHashes, s0.samples h = false) := by
  have hinv : DownloadInv s0 s0 := by
    refine ⟨hdl ▸ List.nodup_nil, by rw [hdl, hw], ?_, fun h hh => hh, ?_⟩
    · intro h hm
      rw [hdl] at hm
      exact absurd hm (List.not_mem_nil h)
    · intro h hm
      rw [hdl] at hm
      exact absurd hm (List.not_mem_nil h)
  have h := scrapeLoop_download cfg api s0 feed s0 hinv
  unfold runScrape
  cases hres : scrapeLoop cfg api s0 feed with
  | ok s =>
    rw [hres] at h
    simp only [LoopResult.state] at h
    dsimp only
    exact h
  | err s e =>
    rw [hres] at h
    simp only [LoopResult.state] at h
    dsimp only
    exact h

/-- C9 witness: two file items sharing the content hash `hA`; the run fetches
and writes it once. -/
theorem artifact_at_most_once_witness :
    (runScrape exCfg exApi emptyScrapeState
        [exItemFileA, exItemFileA2, exItemUrlB]).state.downloadCalls.Nodup ∧
    (runScrape exCfg exApi emptyScrapeState
        [exItemFileA, exItemFileA2, exItemUrlB]).state.writtenHashes.Nodup ∧
    (runScrape exCfg exApi emptyScrapeState
        [exItemFileA, exItemFileA2, exItemUrlB]).state.writtenHashes.length
      ≤ (runScrape exCfg exApi emptyScrapeState
        [exItemFileA, exItemFileA2, exItemUrlB]).state.downloadCalls.length ∧
    (∀ h ∈ (runScrape exCfg exApi emptyScrapeState
        [exItemFileA, exItemFileA2, exItemUrlB]).state.downloadCalls,
      emptyScrapeState.samples h = false) ∧
    (∀ h ∈ (runScrape exCfg exApi emptyScrapeState
        [exItemFileA, exItemFileA2, exItemUrlB]).state.writtenHashes,
      emptyScrapeState.samples h = false) :=
  artifact_at_most_once exCfg exApi emptyScrapeState
    [exItemFileA, exItemFileA2, exItemUrlB] rfl rfl

/-- C2 amended, witness at the fixture run with budget 10. -/
theorem budget_enforced_witness :
    (runScrape exCfg exApi emptyScrapeState
        [exItemFileA, exItemUrlB, exItemFileC]).state.newSamples
      ≤ exCfg.maxNewSampleCount ∧
    (runScrape exCfg exApi emptyScrapeState
        [exItemFileA, exItemUrlB, exItemFileC]).state.writtenHashes.length
      ≤ exCfg.maxNewSampleCount :=
  budget_enforced exCfg exApi emptyScrapeState [exItemFileA, exItemUrlB, exItemFileC]
    (by decide) rfl rfl

/-! Claim C1: the stop condition. -/

theorem string_append_cancel (a b c : String) (h : a ++ c = b ++ c) : a = b := by
  apply String.ext
  have hd : a.data ++ c.data = b.data ++ c.data := congrArg String.data h
  exact List.append_cancel_right hd

/-- Cache-evolution invariant relative to the run's initial state `s0`: the
report cache only grows, and every entry either was present initially or
holds exactly what the remote returns for the sample-id part of its file
name. -/
def CacheInv (api : HatchingTriageApi) (s0 s : ScrapeState) : Prop :=
  (∀ k r, s0.reports k = some r → s.reports k = some r) ∧
  (∀ k, s.reports k = s0.reports k ∨
    ∃ sid, k = sid ++ ".json" ∧ s.reports k = api.report sid)

theorem cacheInv_refl (api : HatchingTriageApi) (s0 : ScrapeState) :
    CacheInv api s0 s0 :=
  ⟨fun _ _ h => h, fun _ => Or.inl rfl⟩

theorem scrapeStep_resolved (cfg : ScrapeConfig) (api : HatchingTriageApi)
    (s0 s : ScrapeState) (it : FeedItem) (r : Report)
    (hInv : CacheInv api s0 s)
    (hres : getReportInState api s0 it = some r) :
    ∃ s₁, scrapeStep cfg api s it = afterReport cfg api s₁ it r ∧
      CacheInv api s0 s₁ ∧
      s₁.samples = s.samples ∧ s₁.newSamples = s.newSamples ∧
      s₁.stateFile = s.stateFile ∧ s₁.downloadCalls = s.downloadCalls ∧
      s₁.writtenHashes = s.writtenHashes ∧ s₁.dispatched = s.dispatched := by
  unfold getReportInState at hres
  unfold scrapeStep
  cases hc : s.reports (reportFileName it) with
  | some r0 =>
    have hr0 : r0 = r := by
      rcases hInv.2 (reportFileName it) with heq | ⟨sid, hkey, hval⟩
      · rw [hc] at heq
        rw [← heq] at hres
        dsimp only at hres
        injection hres
      · have hsid : sid = pyStrHatchingSampleId it.id := by
          have hk2 : pyStrHatchingSampleId it.id ++ ".json" = sid ++ ".json" := hkey
          exact (string_append_cancel _ _ _ hk2).symm
        rw [hc] at hval
        rw [hsid] at hval
        cases hc0 : s0.reports (reportFileName it) with
        | some r1 =>
          rw [hc0] at hres
          dsimp only at hres
          injection hres with hres
          have hpre := hInv.1 _ _ hc0
          rw [hc] at hpre
          injection hpre with hpre
          exact hpre.trans hres
        | none =>
          rw [hc0] at hres
          dsimp only at hres
          rw [hres] at hval
          injection hval
    subst hr0
    exact ⟨s, rfl, hInv, rfl, rfl, rfl, rfl, rfl, rfl⟩
  | none =>
    have hc0 : s0.reports (reportFileName it) = none := by
      cases hc0 : s0.reports (reportFileName it) with
      | none => rfl
      | some r1 =>
        have hpre := hInv.1 _ _ hc0
        rw [hc] at hpre
        exact Option.noConfusion hpre
    rw [hc0] at hres
    dsimp only at hres
    rw [hres]
    refine ⟨_, rfl, ⟨?_, ?_⟩, rfl, rfl, rfl, rfl, rfl, rfl⟩
    · intro k r1 hk
      show (if k = reportFileName it then some r else s.reports k) = some r1
      by_cases hkey : k = reportFileName it
      · rw [hkey] at hk
        rw [hc0] at hk
        exact Option.noConfusion hk
      · rw [if_neg hkey]
        exact hInv.1 k r1 hk
    · intro k
      show (if k = reportFileName it then some r else s.reports k) = s0.reports k ∨
        ∃ sid, k = sid ++ ".json" ∧
          (if k = reportFileName it then some r else s.reports k) = api.report sid
      by_cases hkey : k = reportFileName it
      · right
        refine ⟨pyStrHatchingSampleId it.id, by rw [hkey]; rfl, ?_⟩
        rw [if_pos hkey]
        exact hres.symm
      · rcases hInv.2 k with heq | ⟨sid, hk2, hv⟩
        · left
          rw [if_neg hkey]
          exact heq
        · right
          exact ⟨sid, hk2, by rw [if_neg hkey]; exact hv⟩

theorem dispatchPhase_success (cfg : ScrapeConfig) (api : HatchingTriageApi)
    (s : ScrapeState) (it : FeedItem) (r : Report)
    (hok : (it.kind = "file" ∧ (rootFiles r).length = 1 ∧
      (api.download r.sampleSample).isSome = true) ∨ it.kind = "url")
    (hbud : s.newSamples + 1 < cfg.maxNewSampleCount) :
    ∃ s₂, dispatchPhase cfg api s it r = .cont s₂ ∧
      s₂.reports = s.reports ∧
      s₂.dispatched = s.dispatched ++ [it.id.value] ∧
      s₂.newSamples ≤ s.newSamples + 1 := by
  rcases hok with ⟨hk, hlen, hdl⟩ | hu
  · obtain ⟨f, hf⟩ := List.length_eq_one.mp hlen
    unfold dispatchPhase
    rw [if_pos hk, hf]
    dsimp only
    by_cases hs : s.samples f.sha256 = true
    · rw [if_pos hs]
      unfold budgetCheck
      dsimp only
      rw [if_neg (by omega : ¬ (cfg.maxNewSampleCount ≤ s.newSamples))]
      exact ⟨_, rfl, rfl, rfl, Nat.le_succ _⟩
    · rw [if_neg hs]
      cases hdlv : api.download r.sampleSample with
      | none =>
        rw [hdlv] at hdl
        exact Bool.noConfusion hdl
      | some c =>
        dsimp only
        unfold budgetCheck
        dsimp only
        rw [if_neg (by omega : ¬ (cfg.maxNewSampleCount ≤ s.newSamples + 1))]
        exact ⟨_, rfl, rfl, rfl, le_refl _⟩
  · have hk : ¬ it.kind = "file" := by
      rw [hu]
      decide
    unfold dispatchPhase
    rw [if_neg hk, if_pos hu]
    unfold budgetCheck
    dsimp only
    rw [if_neg (by omega : ¬ (cfg.maxNewSampleCount ≤ s.newSamples))]
    exact ⟨_, rfl, rfl, rfl, Nat.le_succ _⟩

theorem takeWhile_eq_filter (tsv : FeedItem → Nat) (T : Nat) :
    ∀ l : List FeedItem, l.Pairwise (fun a b => tsv b ≤ tsv a) →
      l.takeWhile (fun it => decide (T ≤ tsv it))
        = l.filter (fun it => decide (T ≤ tsv it)) := by
  intro l
  induction l with
  | nil => intro _; rfl
  | cons a l ih =>
    intro hp
    rw [List.pairwise_cons] at hp
    by_cases ha : T ≤ tsv a
    · rw [List.takeWhile_cons, List.filter_cons]
      simp [ha, ih hp.2]
    · have hl : l.filter (fun it => decide (T ≤ tsv it)) = [] := by
        apply List.filter_eq_nil_iff.mpr
        intro b hb
        simp only [decide_eq_true_eq]
        have := hp.1 b hb
        omega
      rw [List.takeWhile_cons, List.filter_cons]
      simp [ha, hl]

theorem scrapeLoop_success (cfg : ScrapeConfig) (api : HatchingTriageApi)
    (s0 : ScrapeState) (rep : FeedItem → Report) (tss : FeedItem → String)
    (tsv : FeedItem → Nat) :
    ∀ (l : List FeedItem) (s : ScrapeState), CacheInv api s0 s →
      (∀ it ∈ l, getReportInState api s0 it = some (rep it)) →
      (∀ it ∈ l, (rep it).analysisReported = some (tss it) ∧
        parseTimestamp (tss it) = some (tsv it)) →
      (∀ it ∈ l, (it.kind = "file" ∧ (rootFiles (rep it)).length = 1 ∧
          (api.download (rep it).sampleSample).isSome = true) ∨ it.kind = "url") →
      s.newSamples + l.length < cfg.maxNewSampleCount →
      ∃ s', scrapeLoop cfg api s l = .ok s' ∧
        s'.dispatched = s.dispatched ++
          ((if cfg.ignoreLastScrapeDate then l
            else l.takeWhile (fun it => decide (cfg.lastScrape ≤ tsv it))).map
            (fun it => it.id.value)) := by
  intro l
  induction l with
  | nil =>
    intro s _ _ _ _ _
    refine ⟨s, rfl, ?_⟩
    cases cfg.ignoreLastScrapeDate <;> simp
  | cons it rest ih =>
    intro s hInv hres hts hdisp hbud
    obtain ⟨s₁, hstep, hInv₁, hsamp₁, hn₁, hsf₁, hdl₁, hw₁, hd₁⟩ :=
      scrapeStep_resolved cfg api s0 s it (rep it) hInv
        (hres it (List.mem_cons_self it rest))
    obtain ⟨hrep, hpar⟩ := hts it (List.mem_cons_self it rest)
    have hlenb : s.newSamples + rest.length + 1 < cfg.maxNewSampleCount := by
      have := hbud
      simp only [List.length_cons] at this
      omega
    by_cases hstop : tsv it < cfg.lastScrape ∧ cfg.ignoreLastScrapeDate = false
    · have hbrk : afterReport cfg api s₁ it (rep it) = .brk s₁ := by
        unfold afterReport
        rw [hrep]
        dsimp only
        rw [hpar]
        dsimp only
        rw [if_pos hstop]
      refine ⟨s₁, ?_, ?_⟩
      · simp only [scrapeLoop, hstep, hbrk]
      · rw [hd₁, hstop.2]
        have hne : ¬ (cfg.lastScrape ≤ tsv it) := by omega
        simp [List.takeWhile_cons, hne]
    · have hdisp' : afterReport cfg api s₁ it (rep it)
          = dispatchPhase cfg api s₁ it (rep it) := by
        unfold afterReport
        rw [hrep]
        dsimp only
        rw [hpar]
        dsimp only
        rw [if_neg hstop]
      obtain ⟨s₂, hd2, hrep2, hdisp2, hn2⟩ :=
        dispatchPhase_success cfg api s₁ it (rep it)
          (hdisp it (List.mem_cons_self it rest)) (by rw [hn₁]; omega)
      have hstep' : scrapeStep cfg api s it = .cont s₂ := by
        rw [hstep, hdisp', hd2]
      have hInv₂ : CacheInv api s0 s₂ := by
        obtain ⟨p1, p2⟩ := hInv₁
        constructor
        · intro k r1 hk
          rw [hrep2]
          exact p1 k r1 hk
        · intro k
          rw [hrep2]
          exact p2 k
      have hbud₂ : s₂.newSamples + rest.length < cfg.maxNewSampleCount := by
        have h2 : s₂.newSamples ≤ s.newSamples + 1 := by
          rw [hn₁] at hn2
          exact hn2
        omega
      obtain ⟨s', hloop, hdisps'⟩ := ih s₂ hInv₂
        (fun it' hm => hres it' (List.mem_cons_of_mem _ hm))
        (fun it' hm => hts it' (List.mem_cons_of_mem _ hm))
        (fun it' hm => hdisp it' (List.mem_cons_of_mem _ hm))
        hbud₂
      refine ⟨s', ?_, ?_⟩
      · simp only [scrapeLoop, hstep']
        exact hloop
      · rw [hdisps', hdisp2, hd₁]
        cases hig : cfg.ignoreLastScrapeDate with
        | true => simp [List.map_cons, List.append_assoc]
        | false =>
          have hge : cfg.lastScrape ≤ tsv it := by
            by_contra hlt
            exact hstop ⟨by omega, hig⟩
          simp [List.takeWhile_cons, hge, List.append_assoc]

/-- C1: over a feed whose reports all resolve, all carry parseable reported
timestamps, and whose items all dispatch successfully, within budget: when
the ignore flag is off the engine dispatches exactly the items whose
reported timestamp is at least the watermark — under the claim's hypothesis
of decreasing timestamps these are all such items of the feed — and the loop
terminates with a break at the first older item, without error; when the
ignore flag is on, every feed item is dispatched. -/
theorem stop_condition_correct (cfg : ScrapeConfig) (api : HatchingTriageApi)
    (s0 : ScrapeState) (feed : List FeedItem) (rep : FeedItem → Report)
    (tss : FeedItem → String) (tsv : FeedItem → Nat)
    (hd0 : s0.dispatched = [])
    (hres : ∀ it ∈ feed, getReportInState api s0 it = some (rep it))
    (hts : ∀ it ∈ feed, (rep it).analysisReported = some (tss it) ∧
      parseTimestamp (tss it) = some (tsv it))
    (hdisp : ∀ it ∈ feed, (it.kind = "file" ∧ (rootFiles (rep it)).length = 1 ∧
        (api.download (rep it).sampleSample).isSome = true) ∨ it.kind = "url")
    (hdec : feed.Pairwise (fun a b => tsv b ≤ tsv a))
    (hbud : s0.newSamples + feed.length < cfg.maxNewSampleCount) :
    (runScrape cfg api s0 feed).error = none ∧
    (runScrape cfg api s0 feed).state.dispatched =
      ((if cfg.ignoreLastScrapeDate then feed
        else feed.filter (fun it => decide (cfg.lastScrape ≤ tsv it))).map
        (fun it => it.id.value)) := by
  obtain ⟨s', hloop, hdisps'⟩ := scrapeLoop_success cfg api s0 rep tss tsv feed s0
    (cacheInv_refl api s0) hres hts hdisp hbud
  unfold runScrape
  rw [hloop]
  refine ⟨rfl, ?_⟩
  dsimp only
  rw [hdisps', hd0]
  cases hig : cfg.ignoreLastScrapeDate with
  | true => simp
  | false =>
    rw [takeWhile_eq_filter tsv cfg.lastScrape feed hdec]
    simp

/-- Report assignment of the fixture feed, by sample-id value. -/
def exRep : FeedItem → Report := fun it =>
  if it.id.value = "220102-aaaa" then exReportA
  else if it.id.value = "220101-bbbb" then exReportB
  else exReportC

/-- Reported-timestamp strings of the fixture reports. -/
def exTss : FeedItem → String := fun it =>
  if it.id.value = "220102-aaaa" then "2022-01-02T00:00:00Z"
  else if it.id.value = "220101-bbbb" then "2022-01-01T12:00:00Z"
  else "2021-12-31T00:00:00Z"

/-- Parsed reported timestamps of the fixture reports. -/
def exTsv : FeedItem → Nat := fun it =>
  if it.id.value = "220102-aaaa" then encodeTimestamp 2022 1 2 0 0 0
  else if it.id.value = "220101-bbbb" then encodeTimestamp 2022 1 1 12 0 0
  else encodeTimestamp 2021 12 31 0 0 0

/-- C1 witness: three items with decreasing reported timestamps around the
watermark 2022-01-01; the run dispatches exactly the two fresh ones. -/
theorem stop_condition_correct_witness :
    (runScrape exCfg exApi emptyScrapeState
        [exItemFileA, exItemUrlB, exItemFileC]).error = none ∧
    (runScrape exCfg exApi emptyScrapeState
        [exItemFileA, exItemUrlB, exItemFileC]).state.dispatched =
      ((if exCfg.ignoreLastScrapeDate then [exItemFileA, exItemUrlB, exItemFileC]
        else ([exItemFileA, exItemUrlB, exItemFileC]).filter
          (fun it => decide (exCfg.lastScrape ≤ exTsv it))).map
        (fun it => it.id.value)) :=
  stop_condition_correct exCfg exApi emptyScrapeState
    [exItemFileA, exItemUrlB, exItemFileC] exRep exTss exTsv rfl
    (by decide) (by decide) (by decide) (by decide) (by decide)

end HatchingTriage
